import Mathlib

/-!
# Verification of the mochi interpreter core

Shallow embedding of the parts of the mochi Lua-like interpreter that the
spec's claims are about: the value model, metamethod lookup, the scheduler's
error-unwinding path (`Vm::execute_single_step`), `Vm::push_frame`, the
`MmBin`, `TailCall`, `ForPrep`/`ForLoop` and arithmetic opcode arms of
`Vm::execute_frame`, the lexer's newline and decimal-escape handling, the
stdlib argument helpers, and `math_abs`.

Modelling conventions:
* `i64` machine integers are modelled as `Int` with explicit two's-complement
  wrapping (`wrap64`) exactly where the source uses wrapping operations or
  where release-mode overflow wraps.
* `f64` floats (`Number` in the source) are modelled as `Rat`.  No claim here
  depends on rounding, infinities or NaN; the claims about floats only
  concern which variant (integer vs. number) an operation produces.
* Byte strings handled by the lexer are `List Nat` (byte values); interned
  `LuaString`s used as table keys and error messages are Lean `String`s.
* Heap references (`GcCell`) to tables are inlined: a `Value.table` carries
  the table's contents.  No claim below depends on reference identity.
-/

/-- Two's-complement wrapping of an unbounded integer into the `i64` range,
`[-2^63, 2^63)`.  Models release-mode wrapping of Rust `i64` arithmetic and
the explicit `wrapping_*` operations. -/
def wrap64 (n : Int) : Int := (n + 2 ^ 63) % 2 ^ 64 - 2 ^ 63

/-- The `i64` range predicate. -/
def isI64 (n : Int) : Prop := -(2 ^ 63) ≤ n ∧ n < 2 ^ 63

instance (n : Int) : Decidable (isI64 n) := by unfold isI64; infer_instance

/-- Model of `i64::wrapping_abs`: the absolute value, except that
`i64::MIN` maps to itself. -/
def wrappingAbs (x : Int) : Int := wrap64 |x|

/-- The runtime type tags (`types::Type` in the source; the `Type` module is
not under `src/`, so the tag set is taken from the spec's value model, §3). -/
inductive Ty where
  | Nil
  | Boolean
  | Number
  | String
  | Table
  | Function
  | UserData
  | Thread
  deriving DecidableEq, Repr

/-- Alias for `String`, usable inside the `Ty` namespace where the
constructor `Ty.String` shadows the builtin name. -/
abbrev Str := String

/-- `Type::name`, the printable name used in error messages. -/
def Ty.name : Ty → Str
  | .Nil => "nil"
  | .Boolean => "boolean"
  | .Number => "number"
  | .String => "string"
  | .Table => "table"
  | .Function => "function"
  | .UserData => "userdata"
  | .Thread => "thread"

mutual
/-- The tagged value union (`types::Value`).  Closures, native functions and
threads are opaque to the claims below and are represented by ids; tables
and userdata carry their (meta)table contents inline. -/
inductive Value : Type where
  | nil : Value
  | boolean (b : Bool) : Value
  | integer (x : Int) : Value
  | number (x : Rat) : Value
  | string (s : String) : Value
  | table (t : Table) : Value
  | userdata (metatable : Option Table) : Value
  | luaClosure (id : Nat) : Value
  | nativeFunction (id : Nat) : Value
  | nativeClosure (id : Nat) : Value
  | thread (id : Nat) : Value

/-- Modelled from the spec: the `Table` type lives in the `types` module,
which is not under `src/`.  Per §3 it is an array part, a hash part and an
optional metatable; the claims below only exercise string-keyed lookups
(`Table::get_field`), so the hash part is modelled as a string-keyed
association list and the array part is omitted. -/
inductive Table : Type where
  | mk (fields : List (String × Value)) (metatable : Option Table) : Table
end

/-- The string-keyed fields of a table. -/
def Table.fields : Table → List (String × Value)
  | .mk fields _ => fields

/-- The metatable slot of a table. -/
def Table.metatable : Table → Option Table
  | .mk _ m => m

/-- Modelled from the spec: `Table::get_field` (raw string-keyed lookup,
bypassing metamethods); absent keys read as nil. -/
def Table.get_field (t : Table) (key : String) : Value :=
  ((t.fields.find? fun e => e.1 = key).map Prod.snd).getD Value.nil

/-- `Value::ty`: the type tag of a value. -/
def Value.ty : Value → Ty
  | .nil => .Nil
  | .boolean _ => .Boolean
  | .integer _ => .Number
  | .number _ => .Number
  | .string _ => .String
  | .table _ => .Table
  | .userdata _ => .UserData
  | .luaClosure _ => .Function
  | .nativeFunction _ => .Function
  | .nativeClosure _ => .Function
  | .thread _ => .Thread

/-- `Value::is_nil`. -/
def Value.is_nil : Value → Bool
  | .nil => true
  | _ => false

/-- Modelled from the spec (§8 law 2): `Value::to_integer` succeeds iff the
value is an integer, or a float that is mathematically integral and
representable in 64 bits.  (`types` is not under `src/`.) -/
def Value.to_integer : Value → Option Int
  | .integer x => some x
  | .number q => if q.den = 1 ∧ isI64 q.num then some q.num else none
  | _ => none

/-- Modelled from the spec (§3): integer-to-float promotion; floats pass
through.  Mirrors `Value::to_number_without_string_coercion` used by the
interpreter loop. -/
def Value.to_number_without_string_coercion : Value → Option Rat
  | .integer x => some (x : Rat)
  | .number q => some q
  | _ => none

/-- Modelled from the spec: `Value::to_number` as used by the stdlib
argument helpers.  String-numeral coercion (§8 law 2) is not modelled —
strings are treated as non-coercible here — and no theorem below is stated
at a string argument. -/
def Value.to_number : Value → Option Rat
  | .integer x => some (x : Rat)
  | .number q => some q
  | _ => none

/-- Modelled from the spec: `Value::to_string` coercion used by the stdlib
argument helpers: strings pass through, numbers print; other values do not
coerce. -/
def Value.to_string : Value → Option String
  | .string s => some s
  | .integer x => some (toString x)
  | .number q => some (toString q)
  | _ => none

/-- Modelled from the spec: `Value::as_thread` (the thread reference, here
its id). -/
def Value.as_thread : Value → Option Nat
  | .thread id => some id
  | _ => none

/-- Modelled from the spec: `Value::borrow_as_table`. -/
def Value.borrow_as_table : Value → Option Table
  | .table t => some t
  | _ => none

/-- The metamethod events (`runtime::Metamethod`; the module is not under
`src/`, the event list is the spec's §4.4). -/
inductive Metamethod where
  | Index | NewIndex | Add | Sub | Mul | Div | Mod | Pow | IDiv
  | BAnd | BOr | BXor | Shl | Shr | Unm | BNot | Len | Concat
  | Eq | Lt | Le | Call | Close | Gc | ToString
  deriving DecidableEq, Repr

/-- The interned event name of a metamethod (`Vm::metamethod_name`). -/
def Metamethod.name : Metamethod → Str
  | .Index => "__index" | .NewIndex => "__newindex"
  | .Add => "__add" | .Sub => "__sub" | .Mul => "__mul" | .Div => "__div"
  | .Mod => "__mod" | .Pow => "__pow" | .IDiv => "__idiv"
  | .BAnd => "__band" | .BOr => "__bor" | .BXor => "__bxor"
  | .Shl => "__shl" | .Shr => "__shr" | .Unm => "__unm" | .BNot => "__bnot"
  | .Len => "__len" | .Concat => "__concat"
  | .Eq => "__eq" | .Lt => "__lt" | .Le => "__le"
  | .Call => "__call" | .Close => "__close" | .Gc => "__gc"
  | .ToString => "__tostring"

/-- The operation field of a `TypeError` (`runtime::Operation`; variants as
used by the code under `src/`). -/
inductive Operation where
  | Index | Arithmetic | Concatenate | Call
  deriving DecidableEq, Repr

/-- The error taxonomy (`runtime::ErrorKind`; the module is not under
`src/`, the variant list is the spec's §7 plus the constructors used by the
code under `src/`). -/
inductive ErrorKind where
  | TypeError (operation : Operation) (ty : Ty)
  | ArgumentTypeError (nth : Nat) (expected_type : Str) (got_type : Option Str)
  | ArgumentError (nth : Nat) (message : Str)
  | ArithmeticError (message : Str)
  | IndexError (message : Str)
  | StackOverflow
  | External (message : Str)
  | Other (message : Str)
  deriving DecidableEq, Repr

/-- `ErrorKind::other`. -/
def ErrorKind.other (message : Str) : ErrorKind := .Other message

/-- Thread status (`types::ThreadStatus`; the variants are those referenced
by the code under `src/` plus the spec's §3 list). -/
inductive ThreadStatus where
  | Resumable
  | Unresumable
  | Running
  | Suspended
  | Normal
  | Error (kind : ErrorKind)
  deriving DecidableEq, Repr

/-- An upvalue cell (`types::Upvalue`): open cells alias a stack slot of the
owning thread; closed cells own their value.  (The `types` module is not
under `src/`; the two states are the spec's §3.) -/
inductive Upvalue where
  | Open (index : Nat)
  | Closed (value : Value)

/-- A continuation's pending argument slot: `ContinuationFrame`'s inner
continuation, observed through `Continuation::set_args` (`runtime::frame`
is not under `src/`; the shape follows the uses in `src/src/runtime.rs`).
`none` means no result has been delivered yet. -/
abbrev ContinuationArgs := Option (Except ErrorKind (List Value))

/-- A Lua activation record (`runtime::frame::LuaFrame`, shape per the uses
in `src/` and the spec's §3): `bottom` is the callee slot, `base = bottom+1`
is register 0. -/
structure LuaFrame where
  bottom : Nat
  base : Nat
  pc : Nat
  num_extra_args : Nat
  deriving DecidableEq, Repr

/-- `LuaFrame::new bottom`. -/
def LuaFrame.new (bottom : Nat) : LuaFrame :=
  { bottom := bottom, base := bottom + 1, pc := 0, num_extra_args := 0 }

/-- The frame variants (`runtime::Frame`, shape per the uses in `src/` and
the spec's §3): Lua frames, native frames, protected-call continuation
frames (which record the callee bottom where unwinding stops), and resume
continuation frames. -/
inductive Frame where
  | Lua (f : LuaFrame)
  | Native (bottom : Nat)
  | ProtectedCallContinuation (continuationArgs : ContinuationArgs) (callee_bottom : Nat)
  | ResumeContinuation (continuationArgs : ContinuationArgs)

/-- A thread (`types::LuaThread`, fields per the spec's §3): the value
stack, frame stack, the ordered map from stack index to open upvalue cell
(`open_upvalues`, holding cell ids), the cell store standing in for the GC
heap's upvalue cells, and the status. -/
structure LuaThread where
  stack : List Value
  frames : List Frame
  open_upvalues : List (Nat × Nat)
  cells : List Upvalue
  status : ThreadStatus

/-- `LuaThread::new`: empty stack, frames and upvalue map. -/
def LuaThread.new : LuaThread :=
  { stack := [], frames := [], open_upvalues := [], cells := [], status := .Resumable }

/-- Modelled from the spec (§3): `LuaThread::close_upvalues(gc, boundary)`
converts every open cell whose stack index is at or above `boundary` to a
closed cell holding the current stack slot's value, and removes those
entries from the open-upvalue map.  (`types` is not under `src/`.) -/
def LuaThread.close_upvalues (th : LuaThread) (boundary : Nat) : LuaThread :=
  { th with
    cells := th.cells.map fun c =>
      match c with
      | .Open index =>
        if boundary ≤ index then .Closed (th.stack.getD index .nil) else .Open index
      | c => c,
    open_upvalues := th.open_upvalues.filter fun e => e.1 < boundary }

/-- Truncating a thread's frame stack (`thread.frames.truncate(n)`). -/
def LuaThread.truncateFrames (th : LuaThread) (n : Nat) : LuaThread :=
  { th with frames := th.frames.take n }

/-- A traceback entry.  Modelled from the spec (§6): each entry records the
source position of one frame; `debug.rs` is not under `src/`, so the entry
is modelled as the frame itself. -/
abbrev TracebackFrame := Frame

/-- Modelled from the spec: `LuaThread::traceback` collects one entry per
frame of the thread (`debug.rs` is not under `src/`). -/
def LuaThread.traceback (th : LuaThread) : List TracebackFrame := th.frames

/-- `runtime::RuntimeError`: the error kind plus the collected traceback. -/
structure RuntimeError where
  kind : ErrorKind
  traceback : List TracebackFrame

/-- The VM state needed by the claims (`runtime::Vm`): the stack of
currently-resumed threads (bottom is the main thread, top is the running
thread, threads inlined) and the per-primitive-type default metatables. -/
structure Vm where
  threadStack : List LuaThread
  metatables : Ty → Option Table

/-- `Vm::metatable_of_object`: tables and userdata carry their own
metatable; every other value uses the per-type default. -/
def Vm.metatable_of_object (vm : Vm) (object : Value) : Option Table :=
  match object with
  | .table t => t.metatable
  | .userdata m => m
  | _ => vm.metatables object.ty

/-- `Vm::metamethod_of_object`: look the event's interned name up in the
object's metatable; a nil field counts as absent. -/
def Vm.metamethod_of_object (vm : Vm) (metamethod : Metamethod) (object : Value) :
    Option Value :=
  (vm.metatable_of_object object).bind fun metatable =>
    let m := metatable.get_field metamethod.name
    if m.is_nil then none else some m

/-- The topmost protected-call continuation frame of a frame stack, as found
by the reversed `find_map` walk in `Vm::execute_single_step`
(`src/src/runtime.rs:235-253`): returns its position in the list together
with its recorded `callee_bottom`, preferring the frame nearest the top. -/
def findProtectionBoundary : List Frame → Option (Nat × Nat)
  | [] => none
  | f :: rest =>
    match findProtectionBoundary rest with
    | some (i, cb) => some (i + 1, cb)
    | none =>
      match f with
      | .ProtectedCallContinuation _ cb => some (0, cb)
      | _ => none

/-- The outcome of the error-handling block of `Vm::execute_single_step`.
The dead thread is returned alongside, standing in for the `GcCell` that
still exists on the heap after the thread is popped. -/
inductive UnwindOutcome where
  | unwound (vm : Vm)
  | threadDied (vm : Vm) (dead : LuaThread)
  | fatal (e : RuntimeError) (dead : LuaThread)
  | panicUnreachable

/-- The error-handling block of `Vm::execute_single_step`
(`src/src/runtime.rs:231-277`), entered when `execute_next_frame` returned
`Err(kind)` while the thread stack is non-empty: walk the current thread's
frames from the top for a protected-call continuation; if found, deliver
`Err(kind)` to its continuation, close upvalues at or above its recorded
callee bottom and truncate the frames above it; otherwise pop the thread,
mark it `Error`, and either report to the host (main thread, collecting the
traceback before resetting the thread) or deliver `Err(kind)` to the
resumer's resume continuation. -/
def handleFrameError (vm : Vm) (kind : ErrorKind) : UnwindOutcome :=
  match vm.threadStack.getLast? with
  | none => .panicUnreachable
  | some th =>
    match findProtectionBoundary th.frames with
    | some (frame_index, boundary) =>
      let th :=
        { th with
          frames := th.frames.set frame_index
            (.ProtectedCallContinuation (some (.error kind)) boundary) }
      let th := th.close_upvalues boundary
      let th := { th with frames := th.frames.take (frame_index + 1) }
      .unwound { vm with threadStack := vm.threadStack.dropLast ++ [th] }
    | none =>
      let rest := vm.threadStack.dropLast
      let th := { th with status := .Error kind }
      if rest.isEmpty then
        .fatal { kind := kind, traceback := th.traceback } LuaThread.new
      else
        match rest.getLast? with
        | some resumer =>
          match resumer.frames.getLast? with
          | some (.ResumeContinuation _) =>
            let resumer :=
              { resumer with
                frames := resumer.frames.dropLast
                  ++ [.ResumeContinuation (some (.error kind))] }
            .threadDied { vm with threadStack := rest.dropLast ++ [resumer] } th
          | _ => .panicUnreachable
        | none => .panicUnreachable

/-- `std::ops::ControlFlow<()>` as returned by `Vm::push_frame`. -/
inductive CtrlFlow where
  | Continue
  | Break
  deriving DecidableEq, Repr

/-- `debug::Name`: a `{kind} {name}` pair derived from the calling
instruction (`debug.rs` is not under `src/`). -/
structure DebugName where
  kind : Str
  name : Str

/-- `Vm::push_frame` (`src/src/runtime.rs:291-321`).  The callee sits at
`thread.stack[bottom]`: a Lua closure pushes a Lua frame and continues; a
native function or native closure pushes a native frame and breaks back to
the scheduler; any other value consults its `__call` metamethod — if
present, the metamethod is inserted at the callee slot (shifting callee and
arguments up one) and the push is retried at the same bottom; if absent,
an error is raised and no frame is pushed (though retries may already have
grown the stack).  The thread is threaded through explicitly, mirroring the
`&mut LuaThread` parameter; `func_name_from_call` lives in the missing
`debug.rs` and is passed in as a parameter; `fuel` bounds the `__call`
retry recursion (the source recurses unboundedly). -/
def Vm.push_frame (vm : Vm) (funcNameFromCall : LuaThread → Nat → Option DebugName)
    (th : LuaThread) (bottom : Nat) :
    Nat → LuaThread × Except ErrorKind CtrlFlow
  | 0 => (th, .error .StackOverflow)
  | fuel + 1 =>
    match th.stack.getD bottom .nil with
    | .luaClosure _ =>
      ({ th with frames := th.frames ++ [.Lua (LuaFrame.new bottom)] }, .ok .Continue)
    | .nativeFunction _ =>
      ({ th with frames := th.frames ++ [.Native bottom] }, .ok .Break)
    | .nativeClosure _ =>
      ({ th with frames := th.frames ++ [.Native bottom] }, .ok .Break)
    | value =>
      match vm.metamethod_of_object .Call value with
      | some metamethod =>
        vm.push_frame funcNameFromCall
          { th with stack := th.stack.insertIdx bottom metamethod } bottom fuel
      | none =>
        match funcNameFromCall th bottom with
        | some n =>
          (th, .error (ErrorKind.other
            ("attempt to call a nil value (" ++ n.kind ++ " \"" ++ n.name ++ "\")")))
        | none => (th, .error (.TypeError Operation.Call value.ty))

/-- Modelled from the spec (§4.3): the fixed-width instruction decode lives
in `runtime::instruction`, which is not under `src/`; an instruction is
modelled by its decoded operand fields (`a`, `b`, `c`, the `k` flag, and
the alternative `bx`/`sbx`/`sj` encodings). -/
structure Instruction where
  a : Nat := 0
  b : Nat := 0
  c : Nat := 0
  k : Bool := false
  bx : Nat := 0
  sbx : Int := 0
  sj : Int := 0
  deriving DecidableEq, Repr

instance : Inhabited Instruction := ⟨{}⟩

/-- `Value::metatable` as called in the `MmBin` arm of
`Vm::execute_frame`.  The method takes no VM reference, so it can only
return the per-object metatable of tables and userdata (the per-type
defaults of §4.4 live on the `Vm`); `types` is not under `src/`. -/
def Value.metatable : Value → Option Table
  | .table t => t.metatable
  | .userdata m => m
  | _ => none

/-- The metamethod-dispatch part of the `MmBin` arm
(`src/src/vm/main_loop.rs:366-388`): pick the LHS operand's metatable, or
else the RHS operand's; raise `TypeError{Arithmetic, rb.ty}` when neither
operand has one; otherwise return the (possibly nil) value stored under the
event's name in that single metatable — the value that `execute_value` is
then invoked on. -/
def mmBinSelect (ra rb : Value) (ev : Metamethod) : Except ErrorKind Value :=
  match ra.metatable.orElse fun _ => rb.metatable with
  | none => .error (.TypeError .Arithmetic rb.ty)
  | some metatable => .ok (metatable.get_field ev.name)

/-- The metamethod dispatch as the spec sentence words it: consult the LHS
metatable *for the event*, then the RHS metatable for the event; only if
neither provides it, `TypeError`.  Stated for refinement comparison with
`mmBinSelect`. -/
def mmBinSelectSpec (ra rb : Value) (ev : Metamethod) : Except ErrorKind Value :=
  let lookup : Value → Option Value := fun v =>
    v.metatable.bind fun mt =>
      let m := mt.get_field ev.name
      if m.is_nil then none else some m
  match lookup ra with
  | some m => .ok m
  | none =>
    match lookup rb with
    | some m => .ok m
    | none => .error (.TypeError .Arithmetic rb.ty)

/-- The full `MmBin` arm (`src/src/vm/main_loop.rs:366-388`) on the current
frame's register window: operands `ra`, `rb` are read from registers A and
B, the event comes through operand C's index into the interned name array
(the decode lives in the missing `runtime::metamethod` and is modelled by
passing the event itself), the metamethod value selected by `mmBinSelect`
is invoked on `[ra, rb]` (`execute_value` lives in the missing
`bytecode_vm.rs` and is passed in as `invoke`), and the result is stored at
the destination register of the previous instruction (`code[pc-2]`, with
`pc` already past the `MmBin`). -/
def mmBinArm (code : List Instruction) (pc : Nat) (regs : List Value)
    (insn : Instruction) (ev : Metamethod)
    (invoke : Value → List Value → Except ErrorKind Value) :
    Except ErrorKind (List Value) :=
  let ra := regs.getD insn.a .nil
  let rb := regs.getD insn.b .nil
  let prev_insn := code.getD (pc - 2) default
  match mmBinSelect ra rb ev with
  | .error e => .error e
  | .ok tag_method_value =>
    match invoke tag_method_value [ra, rb] with
    | .error e => .error e
    | .ok result => .ok (regs.set prev_insn.a result)

/-- `Vec::copy_within(src_start..src_end, dest)`: memmove semantics on a
list, for in-bounds ranges. -/
def copyWithin (l : List Value) (src_start src_end dest : Nat) : List Value :=
  l.take dest ++ ((l.drop src_start).take (src_end - src_start))
    ++ l.drop (dest + (src_end - src_start))

/-- The `TailCall` arm (`src/src/vm/main_loop.rs:541-568`) up to the point
where control passes to `call_value` (which lives in the missing
`bytecode_vm.rs`): if the K flag is set, close all upvalues at or above
`frame.bottom`; compute the argument count from B (or "to top" using the
stack top saved at frame entry); copy the callee-plus-arguments block down
so it starts at `frame.bottom`; truncate the stack to end just after the
block; pop the current frame.  Returns the new thread state together with
the `bottom..new_stack_len` range handed to `call_value`. -/
def tailCallStep (th : LuaThread) (frame : LuaFrame) (insn : Instruction)
    (savedStackTop : Nat) : LuaThread × Nat × Nat :=
  let a := insn.a
  let b := insn.b
  let th := if insn.k then th.close_upvalues frame.bottom else th
  let num_results := if 0 < b then b - 1 else savedStackTop - a - frame.base
  let th :=
    { th with
      stack := copyWithin th.stack (frame.base + a) (frame.base + a + num_results + 1)
        frame.bottom }
  let new_stack_len := frame.bottom + num_results + 1
  let th := { th with stack := th.stack.take new_stack_len }
  let th := { th with frames := th.frames.dropLast }
  (th, frame.bottom, new_stack_len)

/-- The `ForPrep` arm (`src/src/vm/main_loop.rs:615-638`) on the current
frame's register window and (already incremented) `pc`.  Only the
all-integer path exists in the source (the float path is `todo!`, modelled
as `none`, as are the `assert!(step != 0)` panic and the unwraps). -/
def forPrep (regs : List Value) (insn : Instruction) (pc : Nat) :
    Option (List Value × Nat) :=
  let a := insn.a
  match (regs.getD a .nil).to_integer, (regs.getD (a + 1) .nil).to_integer,
      (regs.getD (a + 2) .nil).to_integer with
  | some init, some limit, some step =>
    if step = 0 then none
    else
      let skip := if 0 < step then limit < init else init < limit
      if skip then some (regs, pc + insn.bx + 1)
      else
        let regs := regs.set (a + 3) (regs.getD a .nil)
        let count :=
          if 0 < step then (wrap64 (limit - init)).tdiv step
          else (wrap64 (init - limit)).tdiv (wrap64 (-(wrap64 (step + 1)) + 1))
        some (regs.set (a + 1) (.integer count), pc)
  | _, _, _ => none

/-- The `ForLoop` arm (`src/src/vm/main_loop.rs:599-614`) on the current
frame's register window and (already incremented) `pc`: while the count at
A+1 is positive, decrement it, advance the index at A by the step at A+2,
copy the new index to A+3 and jump back by Bx.  The float path is `todo!`
(modelled as `none`, as are the unwraps). -/
def forLoop (regs : List Value) (insn : Instruction) (pc : Nat) :
    Option (List Value × Nat) :=
  let a := insn.a
  match (regs.getD (a + 2) .nil).to_integer with
  | some step =>
    match (regs.getD (a + 1) .nil).to_integer with
    | some count =>
      if 0 < count then
        match (regs.getD a .nil).to_integer with
        | some index =>
          let regs := regs.set (a + 1) (.integer (count - 1))
          let index := wrap64 (index + step)
          some ((regs.set a (.integer index)).set (a + 3) (.integer index),
            pc - insn.bx)
        | none => none
      else some (regs, pc)
    | none => none
  | none => none

/-- Modelled from the spec (§3 coercion, §4.4 arithmetic fallback):
`ops::do_arithmetic` (the `ops` module is not under `src/`) applies the
integer operation when both operands are integers, the float operation
when both coerce to number, and otherwise leaves the operands for the
`MmBin` trampoline that follows the typed instruction (modelled as
`none`). -/
def do_arithmetic (intOp : Int → Int → Int) (fltOp : Rat → Rat → Rat)
    (rb rc : Value) : Option Value :=
  match rb, rc with
  | .integer x, .integer y => some (.integer (intOp x y))
  | rb, rc =>
    match rb.to_number_without_string_coercion, rc.to_number_without_string_coercion with
    | some x, some y => some (.number (fltOp x y))
    | _, _ => none

/-- Modelled from the spec (§3): `ops::do_float_arithmetic` coerces both
operands to float and applies the float operation; used by the `Div` and
`Pow` arms, which therefore always produce a float. -/
def do_float_arithmetic (fltOp : Rat → Rat → Rat) (rb rc : Value) : Option Value :=
  match rb.to_number_without_string_coercion, rc.to_number_without_string_coercion with
  | some x, some y => some (.number (fltOp x y))
  | _, _ => none

/-- The `Add` arm: `ops::do_arithmetic(Integer::wrapping_add, Number::add)`
(`src/src/vm/main_loop.rs:348-350`). -/
def opAdd : Value → Value → Option Value :=
  do_arithmetic (fun x y => wrap64 (x + y)) (· + ·)

/-- The `Sub` arm: `ops::do_arithmetic(Integer::wrapping_sub, Number::sub)`
(`src/src/vm/main_loop.rs:351-353`). -/
def opSub : Value → Value → Option Value :=
  do_arithmetic (fun x y => wrap64 (x - y)) (· - ·)

/-- The `Mul` arm: `ops::do_arithmetic(Integer::wrapping_mul, Number::mul)`
(`src/src/vm/main_loop.rs:354-356`). -/
def opMul : Value → Value → Option Value :=
  do_arithmetic (fun x y => wrap64 (x * y)) (· * ·)

/-- The `Div` arm: `ops::do_float_arithmetic(Number::div)`
(`src/src/vm/main_loop.rs:359`).  `f64` division is modelled as exact
division on `Rat`; the claims only concern the result's variant. -/
def opDiv : Value → Value → Option Value := do_float_arithmetic (· / ·)

/-- The `Pow` arm: `ops::do_float_arithmetic(Number::powf)`
(`src/src/vm/main_loop.rs:358`).  `f64::powf` has no exact model on `Rat`,
so the float power function is a parameter. -/
def opPow (powf : Rat → Rat → Rat) : Value → Value → Option Value :=
  do_float_arithmetic powf

/-- `lexer::is_newline` (`src/src/lexer.rs:573-575`). -/
def is_newline (ch : Nat) : Bool := ch = 10 || ch = 13

/-- `lexer::LexerError` (`src/src/lexer.rs:11-42`; the `Io` variant's
payload is dropped). -/
inductive LexerError where
  | UnknownToken (ch : Nat)
  | InvalidEscapeSequence (ch : Nat)
  | DecimalEscapeTooLarge
  | InvalidLongStringDelimiter
  | UnfinishedToken (what : Str)
  | MalformedNumber
  | HexadecimalDigitExpected
  | MissingEscapeCharacter (ch : Nat)
  | Utf8ValueTooLarge
  | Io
  deriving DecidableEq, Repr

/-- The inner lexer state (`LexerInner`): the remaining byte stream and the
line counter.  (The GC handle and the byte-level peek queue are inlined
into the list.) -/
structure LexerInner where
  input : List Nat
  lineno : Nat

/-- `LexerInner::new` (`src/src/lexer.rs:112-119`): the line counter starts
at 1. -/
def LexerInner.new (input : List Nat) : LexerInner :=
  { input := input, lineno := 1 }

/-- `LexerInner::consume_newline` (`src/src/lexer.rs:257-262`): consume one
newline byte (the `unwrap` panics otherwise, modelled as `none`), then
consume a second newline byte only if it differs from the first — so both
two-byte sequences `\r\n` and `\n\r` are eaten whole — and increment the
line counter exactly once. -/
def LexerInner.consume_newline (st : LexerInner) : Option LexerInner :=
  match st.input with
  | ch :: rest =>
    if is_newline ch then
      let rest :=
        match rest with
        | next :: rest2 => if is_newline next && next ≠ ch then rest2 else next :: rest2
        | [] => []
      some { input := rest, lineno := st.lineno + 1 }
    else none
  | [] => none

/-- An ASCII decimal digit. -/
def isAsciiDigit (ch : Nat) : Bool := 48 ≤ ch && ch ≤ 57

/-- The digit-reading loop of `consume_decimal_escape`: up to `k` leading
decimal digits are folded into the accumulator `r`. -/
def consumeDecimalDigits (r : Nat) (k : Nat) (input : List Nat) : Nat × List Nat :=
  match k, input with
  | 0, l => (r, l)
  | _ + 1, [] => (r, [])
  | k + 1, ch :: rest =>
    if isAsciiDigit ch then consumeDecimalDigits (10 * r + (ch - 48)) k rest
    else (r, ch :: rest)

/-- `LexerInner::consume_decimal_escape` (`src/src/lexer.rs:383-397`): read
at most 3 decimal digits into a value; values that fit in a byte
(`r.try_into::<u8>()`) yield that byte, larger values raise
`DecimalEscapeTooLarge`. -/
def consume_decimal_escape (input : List Nat) : Except LexerError (Nat × List Nat) :=
  let (r, rest) := consumeDecimalDigits 0 3 input
  if r ≤ 255 then .ok (r, rest) else .error .DecimalEscapeTooLarge

/-- `stdlib::helpers::Argument`: a possibly-absent argument value together
with its position. -/
structure Argument where
  value : Option Value
  nth : Nat

/-- `ArgumentsExt::nth` (`src/src/stdlib/helpers.rs:32-38`): out-of-range
positions yield an absent argument instead of panicking (`slice::get`). -/
def argNth (args : List Value) (nth : Nat) : Argument :=
  { value := args.get? nth, nth := nth }

/-- `Argument::to_type` (`src/src/stdlib/helpers.rs:129-146`): apply the
conversion when the argument is present and convertible; otherwise report
`ArgumentTypeError` whose `got_type` names the actual type of a present
argument and is `None` for an absent one. -/
def Argument.to_type {T : Type} (arg : Argument) (name : Str)
    (convert : Value → Option T) : Except ErrorKind T :=
  match arg.value with
  | some value =>
    match convert value with
    | some converted => .ok converted
    | none => .error (.ArgumentTypeError arg.nth name (some value.ty.name))
  | none => .error (.ArgumentTypeError arg.nth name none)

/-- `Argument::to_integer`. -/
def Argument.to_integer (arg : Argument) : Except ErrorKind Int :=
  arg.to_type "integer" Value.to_integer

/-- `Argument::to_number`. -/
def Argument.to_number (arg : Argument) : Except ErrorKind Rat :=
  arg.to_type "number" Value.to_number

/-- `Argument::to_string`. -/
def Argument.to_string (arg : Argument) : Except ErrorKind Str :=
  arg.to_type "string" Value.to_string

/-- `Argument::as_thread`. -/
def Argument.as_thread (arg : Argument) : Except ErrorKind Nat :=
  arg.to_type "thread" Value.as_thread

/-- `Argument::borrow_as_table`. -/
def Argument.borrow_as_table (arg : Argument) : Except ErrorKind Table :=
  arg.to_type "table" Value.borrow_as_table

/-- `Argument::ensure_function` (`src/src/stdlib/helpers.rs:123-127`). -/
def Argument.ensure_function (arg : Argument) : Except ErrorKind Value :=
  arg.to_type "function" fun value =>
    if value.ty = Ty.Function then some value else none

/-- A native function's resulting action (`runtime::Action`; named
`NativeAction` here because Mathlib already owns the name `Action`).  The
claims below only exercise the `Return` variant. -/
inductive NativeAction where
  | Return (values : List Value)

/-- `math_abs` (`src/src/stdlib/math.rs:119-131`): an integer argument maps
to its wrapping absolute value (`i64::wrapping_abs`); any other argument is
coerced to number (propagating the coercion error) and mapped to its float
absolute value.  `args` includes the callee at index 0, so the argument is
`args.nth(1)`. -/
def math_abs (args : List Value) : Except ErrorKind NativeAction :=
  let arg := argNth args 1
  match arg.value with
  | some (.integer x) => .ok (.Return [.integer (wrappingAbs x)])
  | _ =>
    match arg.to_number with
    | .ok y => .ok (.Return [.number |y|])
    | .error e => .error e

/-! ### Helper lemmas -/

theorem wrap64_isI64 (n : Int) : isI64 (wrap64 n) := by
  unfold wrap64 isI64
  omega

theorem wrap64_sub_self_dvd (n : Int) : (2 ^ 64 : Int) ∣ wrap64 n - n := by
  unfold wrap64
  omega

theorem wrap64_eq_self {n : Int} (h : isI64 n) : wrap64 n = n := by
  unfold wrap64
  unfold isI64 at h
  omega

/-- Truncated division of a nonnegative integer by a positive one is the
mathematical floor of the rational quotient. -/
theorem tdiv_eq_floor_of_nonneg {p q : Int} (hp : 0 ≤ p) (hq : 0 < q) :
    p.tdiv q = ⌊(p : ℚ) / (q : ℚ)⌋ := by
  rw [Int.tdiv_eq_ediv hp hq.le]
  have hq' : ((q.toNat : ℤ)) = q := Int.toNat_of_nonneg hq.le
  calc p / q = p / (q.toNat : ℤ) := by rw [hq']
    _ = ⌊(p : ℚ) / ((q.toNat : ℕ) : ℚ)⌋ := (Rat.floor_intCast_div_natCast p q.toNat).symm
    _ = ⌊(p : ℚ) / (q : ℚ)⌋ := by
        have h2 : ((q.toNat : ℕ) : ℚ) = (q : ℚ) := by exact_mod_cast hq'
        rw [h2]

/-! ### C6: integer arithmetic wraps; Div and Pow always produce float -/

/-- C6: for every pair of integer operands, the `Add`, `Sub` and `Mul`
instructions compute the wrapping (two's-complement modulo `2^64`) integer
result — witnessed by the result being in the `i64` range and congruent to
the exact result modulo `2^64` — while the `Div` and `Pow` instructions
always produce a float (`number`) result even on two integers. -/
theorem arith_int_wrapping_div_pow_float :
    ∀ (x y : Int) (powf : ℚ → ℚ → ℚ),
      opAdd (.integer x) (.integer y) = some (.integer (wrap64 (x + y)))
      ∧ opSub (.integer x) (.integer y) = some (.integer (wrap64 (x - y)))
      ∧ opMul (.integer x) (.integer y) = some (.integer (wrap64 (x * y)))
      ∧ opDiv (.integer x) (.integer y) = some (.number ((x : ℚ) / (y : ℚ)))
      ∧ opPow powf (.integer x) (.integer y) = some (.number (powf (x : ℚ) (y : ℚ)))
      ∧ isI64 (wrap64 (x + y)) ∧ (2 ^ 64 : Int) ∣ wrap64 (x + y) - (x + y)
      ∧ isI64 (wrap64 (x - y)) ∧ (2 ^ 64 : Int) ∣ wrap64 (x - y) - (x - y)
      ∧ isI64 (wrap64 (x * y)) ∧ (2 ^ 64 : Int) ∣ wrap64 (x * y) - (x * y) := by
  intro x y powf
  exact ⟨rfl, rfl, rfl, rfl, rfl, wrap64_isI64 _, wrap64_sub_self_dvd _,
    wrap64_isI64 _, wrap64_sub_self_dvd _, wrap64_isI64 _, wrap64_sub_self_dvd _⟩

/-! ### C10: math.abs -/

/-- C10: `math.abs` on an integer argument returns the wrapping absolute
value — `|x|` for every integer above the minimum (hence `-x` for negative
and `x` for non-negative ones), and `i64::MIN` for `i64::MIN` itself —
never raising an error; on a float argument it returns the float absolute
value. -/
theorem math_abs_wrapping_int_float :
    ∀ (args : List Value) (x : Int) (q : ℚ),
      (args.get? 1 = some (.integer x) →
        math_abs args = .ok (.Return [.integer (wrappingAbs x)]))
      ∧ (isI64 x → x ≠ -(2 ^ 63) → wrappingAbs x = |x|)
      ∧ wrappingAbs (-(2 ^ 63)) = -(2 ^ 63)
      ∧ (args.get? 1 = some (.number q) →
        math_abs args = .ok (.Return [.number |q|])) := by
  intro args x q
  refine ⟨fun h => ?_, fun hr hm => ?_, ?_, fun h => ?_⟩
  · simp only [math_abs, argNth, h]
  · apply wrap64_eq_self
    unfold isI64 at hr ⊢
    rcases abs_cases x with ⟨he, _⟩ | ⟨he, _⟩ <;> rw [he] <;> omega
  · have habs : |(-(2 ^ 63) : Int)| = 2 ^ 63 := by
      rw [abs_neg, abs_pow]
      norm_num
    unfold wrappingAbs wrap64
    rw [habs]
    norm_num
  · simp only [math_abs, argNth, h, Argument.to_number, Argument.to_type,
      Value.to_number]

/-- Witness for C10 at concrete inputs: `math.abs(-5) = 5` and
`math.abs(1.5) = 1.5`. -/
theorem math_abs_wrapping_int_float_witness :
    math_abs [Value.nil, Value.integer (-5)] = .ok (.Return [Value.integer 5])
    ∧ math_abs [Value.nil, Value.number (3 / 2)] = .ok (.Return [Value.number (3 / 2)]) := by
  constructor
  · have h := (math_abs_wrapping_int_float [Value.nil, Value.integer (-5)] (-5) 0).1 rfl
    have h2 := (math_abs_wrapping_int_float [] (-5) 0).2.1 (by decide) (by decide)
    rw [h, h2]
    norm_num
  · have h := (math_abs_wrapping_int_float [Value.nil, Value.number (3 / 2)] 0 (3 / 2)).2.2.2 rfl
    rw [h]
    norm_num

/-! ### C7: newline counting -/

/-- C7: the line counter starts at 1, and `consume_newline` advances it by
exactly one per newline sequence: a two-byte pair of distinct newline bytes
(`\r\n` or `\n\r`) is consumed whole and counts once, and a lone newline
byte (`\n` or `\r`, including one followed by a copy of itself or by a
non-newline byte) also counts once. -/
theorem lexer_newline_counting :
    (∀ input : List Nat, (LexerInner.new input).lineno = 1)
    ∧ (∀ (ln a b : Nat) (rest : List Nat), is_newline a = true → is_newline b = true →
        a ≠ b →
        LexerInner.consume_newline ⟨a :: b :: rest, ln⟩ = some ⟨rest, ln + 1⟩)
    ∧ (∀ (ln a b : Nat) (rest : List Nat), is_newline a = true →
        is_newline b = false ∨ a = b →
        LexerInner.consume_newline ⟨a :: b :: rest, ln⟩ = some ⟨b :: rest, ln + 1⟩)
    ∧ (∀ (ln a : Nat), is_newline a = true →
        LexerInner.consume_newline ⟨[a], ln⟩ = some ⟨[], ln + 1⟩) := by
  refine ⟨fun _ => rfl, fun ln a b rest ha hb hne => ?_, fun ln a b rest ha hd => ?_,
    fun ln a ha => ?_⟩
  · simp [LexerInner.consume_newline, ha, hb, Ne.symm hne]
  · rcases hd with hb | hab
    · simp [LexerInner.consume_newline, ha, hb]
    · subst hab
      simp [LexerInner.consume_newline, ha]
  · simp [LexerInner.consume_newline, ha]

/-- Witness for C7 at concrete inputs: a fresh lexer is at line 1; the pair
`\r\n` counts as one newline; `\n\n` counts one per byte; a lone `\n` at
end of input counts once. -/
theorem lexer_newline_counting_witness :
    (LexerInner.new [13, 10, 65]).lineno = 1
    ∧ LexerInner.consume_newline ⟨[13, 10, 65], 1⟩ = some ⟨[65], 2⟩
    ∧ LexerInner.consume_newline ⟨[10, 10], 5⟩ = some ⟨[10], 6⟩
    ∧ LexerInner.consume_newline ⟨[10], 7⟩ = some ⟨[], 8⟩ :=
  ⟨lexer_newline_counting.1 [13, 10, 65],
    lexer_newline_counting.2.1 1 13 10 [65] (by decide) (by decide) (by decide),
    lexer_newline_counting.2.2.1 5 10 10 [] (by decide) (Or.inr rfl),
    lexer_newline_counting.2.2.2 7 10 (by decide)⟩

/-! ### C8: decimal escapes -/

/-- C8: `consume_decimal_escape` reads at most 3 decimal digits — a fourth
digit is left unconsumed — and yields the byte the digits denote when the
value is at most 255, raising `DecimalEscapeTooLarge` otherwise; a shorter
digit run stops at the first non-digit and always fits in a byte. -/
theorem decimal_escape_three_digits_byte_range :
    (∀ (d1 d2 d3 : Nat) (rest : List Nat),
      isAsciiDigit d1 = true → isAsciiDigit d2 = true → isAsciiDigit d3 = true →
      consume_decimal_escape (d1 :: d2 :: d3 :: rest) =
        if 100 * (d1 - 48) + 10 * (d2 - 48) + (d3 - 48) ≤ 255 then
          .ok (100 * (d1 - 48) + 10 * (d2 - 48) + (d3 - 48), rest)
        else .error .DecimalEscapeTooLarge)
    ∧ (∀ (d r : Nat) (rest : List Nat), isAsciiDigit d = true → isAsciiDigit r = false →
        consume_decimal_escape (d :: r :: rest) = .ok (d - 48, r :: rest))
    ∧ (∀ d : Nat, isAsciiDigit d = true → d - 48 ≤ 255) := by
  refine ⟨fun d1 d2 d3 rest h1 h2 h3 => ?_, fun d r rest hd hr => ?_, fun d hd => ?_⟩
  · have hv : 10 * (10 * (10 * 0 + (d1 - 48)) + (d2 - 48)) + (d3 - 48)
        = 100 * (d1 - 48) + 10 * (d2 - 48) + (d3 - 48) := by ring_nf
    simp only [consume_decimal_escape, consumeDecimalDigits, h1, h2, h3, if_true, hv]
  · have hd' : 48 ≤ d ∧ d ≤ 57 := by
      simpa only [isAsciiDigit, Bool.and_eq_true, decide_eq_true_eq] using hd
    simp only [consume_decimal_escape, consumeDecimalDigits, hd, hr, if_true,
      Bool.false_eq_true, if_false]
    rw [if_pos (by omega)]
    norm_num
  · have hd' : 48 ≤ d ∧ d ≤ 57 := by
      simpa only [isAsciiDigit, Bool.and_eq_true, decide_eq_true_eq] using hd
    omega

/-- Witness for C8 at concrete inputs: `\100` gives byte 100, `\256` is
too large, `\7;` reads one digit. -/
theorem decimal_escape_three_digits_byte_range_witness :
    consume_decimal_escape [49, 48, 48, 65] = .ok (100, [65])
    ∧ consume_decimal_escape [50, 53, 54] = .error .DecimalEscapeTooLarge
    ∧ consume_decimal_escape [55, 59] = .ok (7, [59]) := by
  refine ⟨?_, ?_, ?_⟩
  · have h := decimal_escape_three_digits_byte_range.1 49 48 48 [65]
      (by decide) (by decide) (by decide)
    rw [h]
    norm_num
  · have h := decimal_escape_three_digits_byte_range.1 50 53 54 []
      (by decide) (by decide) (by decide)
    rw [h]
    norm_num
  · have h := decimal_escape_three_digits_byte_range.2.1 55 59 []
      (by decide) (by decide)
    rw [h]

/-! ### C9: total argument access -/

/-- C9: accessing a native-function argument is total: an index past the
end of the list yields an absent argument whose typed accessors all return
`ArgumentTypeError` with `got_type = None` rather than panicking, and a
present argument of the wrong type (here a boolean, which no accessor
converts) produces the same error with `got_type` naming the actual
type. -/
theorem argument_access_total :
    ∀ (args : List Value) (n : Nat) (b : Bool),
      (args.length ≤ n →
        (argNth args n).value = none
        ∧ (argNth args n).to_integer = .error (.ArgumentTypeError n "integer" none)
        ∧ (argNth args n).to_number = .error (.ArgumentTypeError n "number" none)
        ∧ (argNth args n).to_string = .error (.ArgumentTypeError n "string" none)
        ∧ (argNth args n).as_thread = .error (.ArgumentTypeError n "thread" none)
        ∧ (argNth args n).borrow_as_table = .error (.ArgumentTypeError n "table" none)
        ∧ (argNth args n).ensure_function = .error (.ArgumentTypeError n "function" none))
      ∧ (args.get? n = some (.boolean b) →
        (argNth args n).to_integer = .error (.ArgumentTypeError n "integer" (some "boolean"))
        ∧ (argNth args n).to_number = .error (.ArgumentTypeError n "number" (some "boolean"))
        ∧ (argNth args n).to_string = .error (.ArgumentTypeError n "string" (some "boolean"))
        ∧ (argNth args n).as_thread = .error (.ArgumentTypeError n "thread" (some "boolean"))
        ∧ (argNth args n).borrow_as_table = .error (.ArgumentTypeError n "table" (some "boolean"))
        ∧ (argNth args n).ensure_function = .error (.ArgumentTypeError n "function" (some "boolean"))) := by
  intro args n b
  constructor
  · intro h
    have hn : args[n]? = none := by
      rw [← List.get?_eq_getElem?]
      exact List.get?_eq_none.mpr h
    refine ⟨?_, ?_⟩
    · simp [argNth, List.get?_eq_getElem?, hn]
    · simp [argNth, List.get?_eq_getElem?, hn, Argument.to_integer,
        Argument.to_number, Argument.to_string, Argument.as_thread,
        Argument.borrow_as_table, Argument.ensure_function, Argument.to_type]
  · intro h
    have hn : args[n]? = some (.boolean b) := by
      rw [← List.get?_eq_getElem?]
      exact h
    simp [argNth, List.get?_eq_getElem?, hn, Argument.to_integer,
      Argument.to_number, Argument.to_string, Argument.as_thread,
      Argument.borrow_as_table, Argument.ensure_function, Argument.to_type,
      Value.to_integer, Value.to_number, Value.to_string, Value.as_thread,
      Value.borrow_as_table, Value.ty, Ty.name]

/-- Witness for C9 at concrete inputs: index 3 of a 2-element argument list
is absent; a boolean argument fails `to_integer` naming `boolean`. -/
theorem argument_access_total_witness :
    (argNth [Value.nil, Value.integer 1] 3).to_integer
      = .error (.ArgumentTypeError 3 "integer" none)
    ∧ (argNth [Value.nil, Value.boolean true] 1).to_integer
      = .error (.ArgumentTypeError 1 "integer" (some "boolean")) :=
  ⟨((argument_access_total [Value.nil, Value.integer 1] 3 true).1 (by decide)).2.1,
    ((argument_access_total [Value.nil, Value.boolean true] 1 true).2 rfl).1⟩


/-! ### C5: numeric for loops -/

/-- C5 (amended): for an all-integer numeric for loop with nonzero step,
`ForPrep` jumps over the body by `Bx+1` when the loop would not execute
(`init > limit` for positive step, `init < limit` for negative step);
otherwise it copies the initial index to A+3 and stores the iteration
count `⌊(limit - init) / step⌋` at A+1 *provided the difference
`limit - init` fits in i64* (`|limit - init| < 2^63`) — the source
computes the count by truncated division of the i64 (hence wrapping)
difference after direction normalisation, so outside that bound the
stored count diverges from the floor formula (see the counterexample).
`ForLoop`, while the count is positive, decrements it, advances the index
at A by `step`, copies the new index to A+3, and jumps back by `Bx`. -/
theorem numeric_for_prep_loop :
    ∀ (regs : List Value) (insn : Instruction) (pc : Nat)
      (init limit step index count : Int),
      (regs.getD insn.a .nil = .integer init →
        regs.getD (insn.a + 1) .nil = .integer limit →
        regs.getD (insn.a + 2) .nil = .integer step →
        isI64 init → isI64 limit → isI64 step →
        (0 < step → limit < init →
          forPrep regs insn pc = some (regs, pc + insn.bx + 1))
        ∧ (step < 0 → init < limit →
          forPrep regs insn pc = some (regs, pc + insn.bx + 1))
        ∧ (step ≠ 0 → (0 < step → init ≤ limit) → (step < 0 → limit ≤ init) →
          |limit - init| < 2 ^ 63 →
          forPrep regs insn pc =
            some ((regs.set (insn.a + 3) (.integer init)).set (insn.a + 1)
              (.integer ⌊((limit : ℚ) - (init : ℚ)) / (step : ℚ)⌋), pc)))
      ∧ (regs.getD insn.a .nil = .integer index →
        regs.getD (insn.a + 1) .nil = .integer count →
        regs.getD (insn.a + 2) .nil = .integer step →
        0 < count →
        forLoop regs insn pc =
          some (((regs.set (insn.a + 1) (.integer (count - 1))).set insn.a
            (.integer (wrap64 (index + step)))).set (insn.a + 3)
            (.integer (wrap64 (index + step))), pc - insn.bx)) := by
  intro regs insn pc init limit step index count
  constructor
  · intro ha hl hs _ _ hstep64
    refine ⟨fun hsp hskip => ?_, fun hsn hskip => ?_, fun hs0 hple hnle hbound => ?_⟩
    · simp only [forPrep, ha, hl, hs, Value.to_integer]
      rw [if_neg (by omega), if_pos (by simp [hsp, hskip])]
    · simp only [forPrep, ha, hl, hs, Value.to_integer]
      rw [if_neg (by omega), if_pos (by rw [if_neg (by omega)]; exact hskip)]
    · simp only [forPrep, ha, hl, hs, Value.to_integer]
      rw [if_neg hs0]
      rcases Int.lt_or_lt_of_ne hs0 with hneg | hpos
      · rw [if_neg (by rw [if_neg (by omega)]; omega)]
        have hdiff : isI64 (init - limit) := by
          unfold isI64
          rcases abs_lt.mp hbound with ⟨hb1, hb2⟩
          omega
        have hs1 : wrap64 (step + 1) = step + 1 := by
          apply wrap64_eq_self
          unfold isI64 at hstep64 ⊢
          omega
        have hp : 0 ≤ init - limit := by omega
        rw [if_neg (by omega), hs1, wrap64_eq_self hdiff]
        rcases eq_or_lt_of_le hstep64.1 with hmin | hgt
        · have hdvs : wrap64 (-(step + 1) + 1) = step := by
            rw [← hmin]
            unfold wrap64
            omega
          rw [hdvs]
          have hlhs : (init - limit).tdiv step = 0 := by
            rw [← hmin, show (-(2 ^ 63) : Int) = -(2 ^ 63 : Int) from rfl,
              Int.tdiv_neg, Int.tdiv_eq_ediv hp (by positivity),
              Int.ediv_eq_zero_of_lt hp (by exact_mod_cast hdiff.2)]
            rfl
          have hrhs : ⌊((limit : ℚ) - (init : ℚ)) / (step : ℚ)⌋ = 0 := by
            have hq : ((limit : ℚ) - (init : ℚ)) / (step : ℚ)
                = ((init : ℚ) - (limit : ℚ)) / ((2 : ℚ) ^ 63) := by
              rw [← hmin]
              push_cast
              rw [show ((limit : ℚ) - (init : ℚ)) = -((init : ℚ) - (limit : ℚ)) by ring,
                neg_div_neg_eq]
              norm_num
            rw [hq, Int.floor_eq_zero_iff]
            constructor
            · apply div_nonneg
              · exact_mod_cast hp
              · positivity
            · rw [div_lt_one (by positivity)]
              exact_mod_cast hdiff.2
          rw [hlhs, hrhs]
        · have hdvs : wrap64 (-(step + 1) + 1) = -step := by
            rw [show (-(step + 1) + 1 : Int) = -step by ring]
            apply wrap64_eq_self
            unfold isI64 at hstep64 ⊢
            omega
          rw [hdvs, tdiv_eq_floor_of_nonneg hp (by omega)]
          have hq : ((init - limit : Int) : ℚ) / ((-step : Int) : ℚ)
              = ((limit : ℚ) - (init : ℚ)) / (step : ℚ) := by
            push_cast
            rw [show ((init : ℚ) - (limit : ℚ)) = -((limit : ℚ) - (init : ℚ)) by ring,
              neg_div_neg_eq]
          rw [hq]
      · rw [if_neg (by rw [if_pos hpos]; omega)]
        have hdiff : isI64 (limit - init) := by
          unfold isI64
          rcases abs_lt.mp hbound with ⟨hb1, hb2⟩
          omega
        rw [if_pos hpos, wrap64_eq_self hdiff,
          tdiv_eq_floor_of_nonneg (by omega) hpos]
        congr 2
        push_cast
        ring
  · intro ha hc hs hcount
    simp only [forLoop, ha, hc, hs, Value.to_integer]
    rw [if_pos hcount]

/-- Witness for C5 at concrete inputs: `for i = 1, 5, 2` prepares a count
of `⌊(5-1)/2⌋ = 2` and copies the index to A+3; `for i = 1, 0, 1` skips the
body by `Bx+1`; one `ForLoop` step with count 2, index 1, step 2 decrements
the count, advances the index to 3 at A and A+3, and jumps back by `Bx`. -/
theorem numeric_for_prep_loop_witness :
    forPrep [Value.integer 1, Value.integer 5, Value.integer 2, Value.nil]
        { a := 0, bx := 7 } 10 =
      some ([Value.integer 1, Value.integer 2, Value.integer 2, Value.integer 1], 10)
    ∧ forPrep [Value.integer 1, Value.integer 0, Value.integer 1, Value.nil]
        { a := 0, bx := 7 } 10 =
      some ([Value.integer 1, Value.integer 0, Value.integer 1, Value.nil], 18)
    ∧ forLoop [Value.integer 1, Value.integer 2, Value.integer 2, Value.nil]
        { a := 0, bx := 7 } 10 =
      some ([Value.integer 3, Value.integer 1, Value.integer 2, Value.integer 3], 3) := by
  refine ⟨?_, ?_, ?_⟩
  · have h := ((numeric_for_prep_loop
      [Value.integer 1, Value.integer 5, Value.integer 2, Value.nil]
      { a := 0, bx := 7 } 10 1 5 2 0 0).1 rfl rfl rfl (by decide) (by decide)
      (by decide)).2.2 (by decide) (fun _ => by decide) (fun hx => absurd hx (by decide))
      (by decide)
    rw [h, show ⌊(((5 : Int) : ℚ) - ((1 : Int) : ℚ)) / ((2 : Int) : ℚ)⌋ = 2 by norm_num]
    rfl
  · have h := ((numeric_for_prep_loop
      [Value.integer 1, Value.integer 0, Value.integer 1, Value.nil]
      { a := 0, bx := 7 } 10 1 0 1 0 0).1 rfl rfl rfl (by decide) (by decide)
      (by decide)).1 (by decide) (by decide)
    rw [h]
    rfl
  · have h := (numeric_for_prep_loop
      [Value.integer 1, Value.integer 2, Value.integer 2, Value.nil]
      { a := 0, bx := 7 } 10 0 0 2 1 2).2 rfl rfl rfl (by decide)
    rw [h, show wrap64 (1 + 2 : Int) = 3 by unfold wrap64; decide]
    rfl

/-- C5 (counterexample): the claim's count formula fails on in-scope loops
whose bounds span more than the i64 range.  For `init = i64::MIN`,
`limit = i64::MAX`, `step = 1` — all integers, step nonzero, and the loop
executes — the i64 subtraction `limit - init` at the `ForPrep` arm wraps to
`-1` (release mode), so the stored count is `-1` and not
`floor((limit - init) / step) = 2^64 - 1`. -/
theorem numeric_for_prep_count_counterexample :
    forPrep [Value.integer (-(2 ^ 63)), Value.integer (2 ^ 63 - 1),
        Value.integer 1, Value.nil] { a := 0, bx := 0 } 0
      = some ([Value.integer (-(2 ^ 63)), Value.integer (-1), Value.integer 1,
          Value.integer (-(2 ^ 63))], 0)
    ∧ (-1 : Int)
      ≠ ⌊(((2 ^ 63 - 1 : Int) : ℚ) - ((-(2 ^ 63) : Int) : ℚ)) / ((1 : Int) : ℚ)⌋ := by
  constructor
  · simp only [forPrep, Value.to_integer]
    norm_num [wrap64]
  · have hq : (((2 ^ 63 - 1 : Int) : ℚ) - ((-(2 ^ 63) : Int) : ℚ)) / ((1 : Int) : ℚ)
        = ((2 ^ 64 - 1 : Int) : ℚ) := by
      push_cast
      ring
    rw [hq, Int.floor_intCast]
    norm_num

/-! ### C3: tail calls -/

/-- `copy_within` followed by truncation keeps exactly the prefix below the
destination plus the copied block, for in-bounds ranges. -/
theorem copyWithin_take {l : List Value} {s nr d : Nat}
    (hds : d ≤ s) (hse : s + (nr + 1) ≤ l.length) :
    (copyWithin l s (s + (nr + 1)) d).take (d + (nr + 1))
      = l.take d ++ (l.drop s).take (nr + 1) := by
  unfold copyWithin
  rw [show s + (nr + 1) - s = nr + 1 by omega]
  apply List.take_left'
  rw [List.length_append, List.length_take, List.length_take, List.length_drop]
  omega

/-- C3: the `TailCall` arm pops the current Lua frame before the callee is
entered: the callee-plus-arguments block (of length `num_results + 1`,
where `num_results` comes from B or from the saved stack top) is copied
down to start at `frame.bottom`, the stack is truncated to end just after
that block, and the frame is removed from the frame stack; when the K flag
is set, the upvalue cells are exactly those produced by closing everything
at or above `frame.bottom` against the pre-overwrite stack, and when it is
clear they are untouched. -/
theorem tailCall_discards_frame_before_callee :
    ∀ (th : LuaThread) (frame : LuaFrame) (insn : Instruction)
      (savedStackTop nr : Nat),
      nr = (if 0 < insn.b then insn.b - 1 else savedStackTop - insn.a - frame.base) →
      frame.bottom ≤ frame.base + insn.a →
      frame.base + insn.a + (nr + 1) ≤ th.stack.length →
      (tailCallStep th frame insn savedStackTop).1.frames = th.frames.dropLast
      ∧ (tailCallStep th frame insn savedStackTop).2
        = (frame.bottom, frame.bottom + nr + 1)
      ∧ (tailCallStep th frame insn savedStackTop).1.stack
        = th.stack.take frame.bottom
          ++ (th.stack.drop (frame.base + insn.a)).take (nr + 1)
      ∧ (tailCallStep th frame insn savedStackTop).1.stack.length
        = frame.bottom + nr + 1
      ∧ (insn.k = true →
          (tailCallStep th frame insn savedStackTop).1.open_upvalues
            = th.open_upvalues.filter (fun e => e.1 < frame.bottom)
          ∧ (tailCallStep th frame insn savedStackTop).1.cells
            = (th.close_upvalues frame.bottom).cells)
      ∧ (insn.k = false →
          (tailCallStep th frame insn savedStackTop).1.open_upvalues
            = th.open_upvalues
          ∧ (tailCallStep th frame insn savedStackTop).1.cells = th.cells) := by
  intro th frame insn savedStackTop nr hnr hds hse
  have hstacks : (tailCallStep th frame insn savedStackTop).1.stack
      = th.stack.take frame.bottom
        ++ (th.stack.drop (frame.base + insn.a)).take (nr + 1) := by
    cases hk : insn.k
    · simp only [tailCallStep, hk, Bool.false_eq_true, if_false, ← hnr]
      rw [show frame.bottom + nr + 1 = frame.bottom + (nr + 1) by omega,
        show frame.base + insn.a + nr + 1 = frame.base + insn.a + (nr + 1) by omega]
      exact copyWithin_take hds hse
    · simp only [tailCallStep, hk, if_true, ← hnr]
      have hcs : (th.close_upvalues frame.bottom).stack = th.stack := rfl
      rw [hcs, show frame.bottom + nr + 1 = frame.bottom + (nr + 1) by omega,
        show frame.base + insn.a + nr + 1 = frame.base + insn.a + (nr + 1) by omega]
      exact copyWithin_take hds hse
  refine ⟨?_, ?_, hstacks, ?_, ?_, ?_⟩
  · cases hk : insn.k <;>
      simp only [tailCallStep, hk, Bool.false_eq_true, if_false, if_true] <;> rfl
  · cases hk : insn.k <;>
      simp only [tailCallStep, hk, Bool.false_eq_true, if_false, if_true, ← hnr]
  · rw [hstacks, List.length_append, List.length_take, List.length_take,
      List.length_drop]
    omega
  · intro hk
    simp only [tailCallStep, hk, if_true]
    constructor <;> trivial
  · intro hk
    simp only [tailCallStep, hk, Bool.false_eq_true, if_false]
    constructor <;> trivial

/-- Witness for C3 at a concrete input: a thread with stack
`[callee0, x, f, y]`, one Lua frame at bottom 0, tail-calling `f(y)`
(A=1, B=2, K set) relocates `[f, y]` to the stack bottom, pops the frame,
and closes the open upvalue cell at slot 1 with the pre-overwrite value
`x`. -/
theorem tailCall_discards_frame_before_callee_witness :
    (tailCallStep
      { stack := [Value.integer 10, Value.integer 11, Value.luaClosure 3, Value.integer 12],
        frames := [Frame.Lua (LuaFrame.new 0)],
        open_upvalues := [(1, 0)],
        cells := [Upvalue.Open 1],
        status := .Resumable }
      (LuaFrame.new 0) { a := 1, b := 2, k := true } 4).1.stack
      = [Value.luaClosure 3, Value.integer 12]
    ∧ (tailCallStep
      { stack := [Value.integer 10, Value.integer 11, Value.luaClosure 3, Value.integer 12],
        frames := [Frame.Lua (LuaFrame.new 0)],
        open_upvalues := [(1, 0)],
        cells := [Upvalue.Open 1],
        status := .Resumable }
      (LuaFrame.new 0) { a := 1, b := 2, k := true } 4).1.frames = []
    ∧ (tailCallStep
      { stack := [Value.integer 10, Value.integer 11, Value.luaClosure 3, Value.integer 12],
        frames := [Frame.Lua (LuaFrame.new 0)],
        open_upvalues := [(1, 0)],
        cells := [Upvalue.Open 1],
        status := .Resumable }
      (LuaFrame.new 0) { a := 1, b := 2, k := true } 4).1.cells
      = [Upvalue.Closed (Value.integer 11)] := by
  have h := tailCall_discards_frame_before_callee
    { stack := [Value.integer 10, Value.integer 11, Value.luaClosure 3, Value.integer 12],
      frames := [Frame.Lua (LuaFrame.new 0)],
      open_upvalues := [(1, 0)],
      cells := [Upvalue.Open 1],
      status := .Resumable }
    (LuaFrame.new 0) { a := 1, b := 2, k := true } 4 1 rfl (by decide) (by decide)
  refine ⟨?_, ?_, ?_⟩
  · rw [h.2.2.1]
    rfl
  · rw [h.1]
    rfl
  · rw [(h.2.2.2.2.1 rfl).2]
    rfl

/-! ### C4: calling non-function values through __call -/

/-- C4: when the callee at `stack[bottom]` is neither a Lua closure nor a
native function nor a native closure, `push_frame` consults the callee's
`__call` metamethod: if present, the metamethod is inserted at the callee
slot (shifting callee and arguments up one) and the push is retried at the
same bottom; if absent, an error is raised — the named
"attempt to call a nil value" message when the calling instruction yields a
name, a `TypeError` for the `Call` operation otherwise — and the thread
(in particular its frame stack) is returned unchanged: no frame is
pushed. -/
theorem push_frame_call_metamethod_or_error :
    ∀ (vm : Vm) (fn : LuaThread → Nat → Option DebugName) (th : LuaThread)
      (bottom fuel : Nat) (v m : Value) (n : DebugName),
      th.stack.getD bottom .nil = v →
      v.ty ≠ Ty.Function →
      (vm.metamethod_of_object .Call v = some m →
        vm.push_frame fn th bottom (fuel + 1)
          = vm.push_frame fn { th with stack := th.stack.insertIdx bottom m }
              bottom fuel)
      ∧ (vm.metamethod_of_object .Call v = none →
        (fn th bottom = some n →
          vm.push_frame fn th bottom (fuel + 1)
            = (th, .error (ErrorKind.other
                ("attempt to call a nil value (" ++ n.kind ++ " \"" ++ n.name ++ "\")"))))
        ∧ (fn th bottom = none →
          vm.push_frame fn th bottom (fuel + 1)
            = (th, .error (.TypeError Operation.Call v.ty)))) := by
  intro vm fn th bottom fuel v m n hv hty
  cases v with
  | luaClosure id => exact absurd rfl hty
  | nativeFunction id => exact absurd rfl hty
  | nativeClosure id => exact absurd rfl hty
  | nil =>
    exact ⟨fun hm => by simp only [Vm.push_frame, hv, hm],
      fun hm => ⟨fun hn => by simp only [Vm.push_frame, hv, hm, hn],
        fun hn => by simp only [Vm.push_frame, hv, hm, hn]⟩⟩
  | boolean b =>
    exact ⟨fun hm => by simp only [Vm.push_frame, hv, hm],
      fun hm => ⟨fun hn => by simp only [Vm.push_frame, hv, hm, hn],
        fun hn => by simp only [Vm.push_frame, hv, hm, hn]⟩⟩
  | integer x =>
    exact ⟨fun hm => by simp only [Vm.push_frame, hv, hm],
      fun hm => ⟨fun hn => by simp only [Vm.push_frame, hv, hm, hn],
        fun hn => by simp only [Vm.push_frame, hv, hm, hn]⟩⟩
  | number x =>
    exact ⟨fun hm => by simp only [Vm.push_frame, hv, hm],
      fun hm => ⟨fun hn => by simp only [Vm.push_frame, hv, hm, hn],
        fun hn => by simp only [Vm.push_frame, hv, hm, hn]⟩⟩
  | string s =>
    exact ⟨fun hm => by simp only [Vm.push_frame, hv, hm],
      fun hm => ⟨fun hn => by simp only [Vm.push_frame, hv, hm, hn],
        fun hn => by simp only [Vm.push_frame, hv, hm, hn]⟩⟩
  | table t =>
    exact ⟨fun hm => by simp only [Vm.push_frame, hv, hm],
      fun hm => ⟨fun hn => by simp only [Vm.push_frame, hv, hm, hn],
        fun hn => by simp only [Vm.push_frame, hv, hm, hn]⟩⟩
  | userdata mt =>
    exact ⟨fun hm => by simp only [Vm.push_frame, hv, hm],
      fun hm => ⟨fun hn => by simp only [Vm.push_frame, hv, hm, hn],
        fun hn => by simp only [Vm.push_frame, hv, hm, hn]⟩⟩
  | thread id =>
    exact ⟨fun hm => by simp only [Vm.push_frame, hv, hm],
      fun hm => ⟨fun hn => by simp only [Vm.push_frame, hv, hm, hn],
        fun hn => by simp only [Vm.push_frame, hv, hm, hn]⟩⟩

/-- Witness for C4 at concrete inputs: a table with a `__call` metamethod
makes `push_frame` retry with the metamethod inserted at the callee slot;
calling nil with no derivable name raises a `TypeError` for `Call` and
leaves the thread untouched. -/
theorem push_frame_call_metamethod_or_error_witness :
    Vm.push_frame { threadStack := [], metatables := fun _ => none }
        (fun _ _ => none)
        { stack := [Value.table (Table.mk []
            (some (Table.mk [("__call", Value.luaClosure 9)] none))),
            Value.integer 4],
          frames := [], open_upvalues := [], cells := [], status := .Resumable }
        0 2
      = Vm.push_frame { threadStack := [], metatables := fun _ => none }
          (fun _ _ => none)
          { stack := [Value.luaClosure 9,
              Value.table (Table.mk []
                (some (Table.mk [("__call", Value.luaClosure 9)] none))),
              Value.integer 4],
            frames := [], open_upvalues := [], cells := [], status := .Resumable }
          0 1
    ∧ Vm.push_frame { threadStack := [], metatables := fun _ => none }
        (fun _ _ => none)
        { stack := [Value.nil], frames := [], open_upvalues := [], cells := [],
          status := .Resumable }
        0 2
      = ((⟨[Value.nil], [], [], [], .Resumable⟩ : LuaThread),
          Except.error (ErrorKind.TypeError Operation.Call Ty.Nil)) := by
  constructor
  · have h := (push_frame_call_metamethod_or_error
      { threadStack := [], metatables := fun _ => none } (fun _ _ => none)
      { stack := [Value.table (Table.mk []
          (some (Table.mk [("__call", Value.luaClosure 9)] none))),
          Value.integer 4],
        frames := [], open_upvalues := [], cells := [], status := .Resumable }
      0 1
      (Value.table (Table.mk []
        (some (Table.mk [("__call", Value.luaClosure 9)] none))))
      (Value.luaClosure 9) { kind := "", name := "" }) rfl (by decide)
    exact h.1 rfl
  · exact ((push_frame_call_metamethod_or_error
      { threadStack := [], metatables := fun _ => none } (fun _ _ => none)
      { stack := [Value.nil], frames := [], open_upvalues := [], cells := [],
        status := .Resumable }
      0 1 Value.nil Value.nil { kind := "", name := "" } rfl
      (by decide)).2 rfl).2 rfl

/-! ### C2: MmBin metamethod dispatch -/

/-- C2 (counterexample): the claim says the dispatcher consults the LHS and
then the RHS metatable *for the event*; the code instead picks the first
operand that has a metatable at all.  With an LHS table whose metatable
lacks `__add` and an RHS table whose metatable provides it, the code
selects the nil field of the LHS metatable (and never the RHS metamethod),
so the dispatch differs from the claim's reading at this input. -/
theorem mmBin_dispatch_counterexample :
    mmBinSelect
        (Value.table (Table.mk [] (some (Table.mk [] none))))
        (Value.table (Table.mk []
          (some (Table.mk [("__add", Value.nativeFunction 7)] none))))
        .Add
      ≠ mmBinSelectSpec
        (Value.table (Table.mk [] (some (Table.mk [] none))))
        (Value.table (Table.mk []
          (some (Table.mk [("__add", Value.nativeFunction 7)] none))))
        .Add := by
  intro h
  have h1 : mmBinSelect
      (Value.table (Table.mk [] (some (Table.mk [] none))))
      (Value.table (Table.mk []
        (some (Table.mk [("__add", Value.nativeFunction 7)] none))))
      .Add = .ok Value.nil := rfl
  have h2 : mmBinSelectSpec
      (Value.table (Table.mk [] (some (Table.mk [] none))))
      (Value.table (Table.mk []
        (some (Table.mk [("__add", Value.nativeFunction 7)] none))))
      .Add = .ok (Value.nativeFunction 7) := rfl
  rw [h1, h2] at h
  injection h with h3
  exact Value.noConfusion h3

/-- C2 (amended): the `MmBin` dispatcher picks the LHS operand's own
metatable, falling back to the RHS operand's metatable only when the LHS
has none; when neither operand has a metatable it raises
`TypeError{Arithmetic, rb.ty}`; otherwise it looks the event named by
operand C up in that single metatable and invokes the resulting value
(which may be nil) on `(ra, rb)`, storing the invocation's result at the
destination register of the previous instruction (`code[pc-2].a`). -/
theorem mmBin_dispatch_single_metatable :
    ∀ (ra rb : Value) (ev : Metamethod) (mt : Table),
      (ra.metatable = some mt →
        mmBinSelect ra rb ev = .ok (mt.get_field ev.name))
      ∧ (ra.metatable = none → rb.metatable = some mt →
        mmBinSelect ra rb ev = .ok (mt.get_field ev.name))
      ∧ (ra.metatable = none → rb.metatable = none →
        mmBinSelect ra rb ev = .error (.TypeError .Arithmetic rb.ty))
      ∧ (∀ (code : List Instruction) (pc : Nat) (regs : List Value)
          (insn : Instruction)
          (invoke : Value → List Value → Except ErrorKind Value) (tmv r : Value),
          mmBinSelect (regs.getD insn.a .nil) (regs.getD insn.b .nil) ev = .ok tmv →
          invoke tmv [regs.getD insn.a .nil, regs.getD insn.b .nil] = .ok r →
          mmBinArm code pc regs insn ev invoke
            = .ok (regs.set (code.getD (pc - 2) default).a r)) := by
  intro ra rb ev mt
  refine ⟨fun h1 => ?_, fun h1 h2 => ?_, fun h1 h2 => ?_, ?_⟩
  · simp only [mmBinSelect, h1]
    rfl
  · simp only [mmBinSelect, h1, h2]
    rfl
  · simp only [mmBinSelect, h1, h2]
    rfl
  · intro code pc regs insn invoke tmv r hsel hinv
    simp only [mmBinArm, hsel, hinv]

/-- Witness for the amended C2 at concrete inputs: with only the RHS
carrying a metatable providing `__add`, that metamethod is selected; with
no metatables at all, the `Arithmetic` `TypeError` names the RHS type; a
selected metamethod's result lands in the destination register of the
previous instruction. -/
theorem mmBin_dispatch_single_metatable_witness :
    mmBinSelect Value.nil
        (Value.table (Table.mk []
          (some (Table.mk [("__add", Value.nativeFunction 7)] none))))
        .Add
      = .ok (Value.nativeFunction 7)
    ∧ mmBinSelect (Value.integer 1) (Value.boolean true) .Add
      = .error (.TypeError .Arithmetic Ty.Boolean)
    ∧ mmBinArm [{ a := 2 }, {}] 2
        [Value.nil,
          Value.table (Table.mk []
            (some (Table.mk [("__add", Value.nativeFunction 7)] none))),
          Value.nil]
        { a := 0, b := 1 } .Add (fun _ _ => .ok (Value.integer 42))
      = .ok [Value.nil, Value.table (Table.mk []
          (some (Table.mk [("__add", Value.nativeFunction 7)] none))),
          Value.integer 42] := by
  refine ⟨?_, ?_, ?_⟩
  · have h := (mmBin_dispatch_single_metatable Value.nil
      (Value.table (Table.mk []
        (some (Table.mk [("__add", Value.nativeFunction 7)] none))))
      .Add (Table.mk [("__add", Value.nativeFunction 7)] none)).2.1 rfl rfl
    rw [h]
    rfl
  · exact (mmBin_dispatch_single_metatable (Value.integer 1) (Value.boolean true)
      .Add (Table.mk [] none)).2.2.1 rfl rfl
  · have h := (mmBin_dispatch_single_metatable Value.nil
      (Value.table (Table.mk []
        (some (Table.mk [("__add", Value.nativeFunction 7)] none))))
      .Add (Table.mk [("__add", Value.nativeFunction 7)] none)).2.2.2
      [{ a := 2 }, {}] 2
      [Value.nil,
        Value.table (Table.mk []
          (some (Table.mk [("__add", Value.nativeFunction 7)] none))),
        Value.nil]
      { a := 0, b := 1 } (fun _ _ => .ok (Value.integer 42))
      (Value.nativeFunction 7) (Value.integer 42) rfl rfl
    rw [h]
    rfl

/-! ### C1: error propagation to a protected-call boundary -/

/-- Unfolding equation for `findProtectionBoundary` on a non-empty frame
stack. -/
theorem findProtectionBoundary_cons (f : Frame) (rest : List Frame) :
    findProtectionBoundary (f :: rest)
      = match findProtectionBoundary rest with
        | some (i, cb) => some (i + 1, cb)
        | none =>
          match f with
          | .ProtectedCallContinuation _ cb => some (0, cb)
          | _ => none := rfl

/-- The reversed frame walk finds an in-range index holding a
protected-call continuation with the returned callee bottom. -/
theorem findProtectionBoundary_spec :
    ∀ (frames : List Frame) (i cb : Nat),
      findProtectionBoundary frames = some (i, cb) →
      i < frames.length
      ∧ ∃ args, frames[i]? = some (.ProtectedCallContinuation args cb) := by
  intro frames
  induction frames with
  | nil => intro i cb h; cases h
  | cons f rest ih =>
    intro i cb h
    rw [findProtectionBoundary_cons] at h
    cases hfb : findProtectionBoundary rest with
    | some p =>
      obtain ⟨i2, cb2⟩ := p
      rw [hfb] at h
      injection h with hh
      rw [Prod.mk.injEq] at hh
      obtain ⟨h1, h2⟩ := hh
      subst h1
      subst h2
      obtain ⟨hlt, args, hget⟩ := ih i2 cb2 hfb
      refine ⟨by simpa using Nat.succ_lt_succ hlt, args, ?_⟩
      simpa using hget
    | none =>
      rw [hfb] at h
      cases f with
      | ProtectedCallContinuation args cb0 =>
        injection h with hh
        rw [Prod.mk.injEq] at hh
        obtain ⟨h1, h2⟩ := hh
        subst h1
        subst h2
        exact ⟨Nat.succ_pos _, args, by simp⟩
      | Lua f2 => cases h
      | Native bottom => cases h
      | ResumeContinuation args2 => cases h

/-- C1: when a frame of the running thread raises `Err(kind)`, the
scheduler walks that thread's frames from the top for a protected-call
continuation.  If one is found at index `i` with recorded callee bottom
`cb`, the frames above `i` are truncated, the frame at `i` now carries
`Err(kind)` for its continuation, frames below are untouched, the stack is
untouched, and every upvalue at or above `cb` is closed (none remains in
the open map; each formerly open cell now holds the stack slot's value).
If none is found, the thread is popped with status `Error(kind)`: a
non-main thread delivers `Err(kind)` to the resumer's resume continuation,
while the main thread makes `execute` return a `RuntimeError` carrying the
kind and a traceback collected from the frames before the thread is
cleared. -/
theorem pcall_unwind_or_thread_death :
    ∀ (vm : Vm) (kind : ErrorKind) (init : List LuaThread) (th : LuaThread),
      vm.threadStack = init ++ [th] →
      (∀ (i cb : Nat) (th' : LuaThread),
        findProtectionBoundary th.frames = some (i, cb) →
        th' = LuaThread.truncateFrames
            (LuaThread.close_upvalues
              { th with
                frames := th.frames.set i
                    (Frame.ProtectedCallContinuation (some (Except.error kind)) cb) }
              cb)
            (i + 1) →
          handleFrameError vm kind
            = .unwound { vm with threadStack := init ++ [th'] }
          ∧ th'.frames.length = i + 1
          ∧ th'.frames.getLast?
            = some (.ProtectedCallContinuation (some (.error kind)) cb)
          ∧ (∀ j, j < i → th'.frames[j]? = th.frames[j]?)
          ∧ th'.stack = th.stack
          ∧ (∀ e ∈ th'.open_upvalues, e.1 < cb)
          ∧ th'.open_upvalues = th.open_upvalues.filter (fun e => e.1 < cb)
          ∧ (∀ (k idx : Nat), th.cells[k]? = some (Upvalue.Open idx) → cb ≤ idx →
              th'.cells[k]? = some (Upvalue.Closed (th.stack.getD idx .nil))))
      ∧ (findProtectionBoundary th.frames = none →
        ∀ (init2 : List LuaThread) (resumer : LuaThread) (rframes : List Frame)
          (args : ContinuationArgs),
          init = init2 ++ [resumer] →
          resumer.frames = rframes ++ [.ResumeContinuation args] →
          handleFrameError vm kind
            = .threadDied
                { vm with threadStack := init2
                    ++ [{ resumer with frames := rframes
                          ++ [.ResumeContinuation (some (.error kind))] }] }
                { th with status := .Error kind })
      ∧ (findProtectionBoundary th.frames = none → init = [] →
        handleFrameError vm kind
          = .fatal { kind := kind, traceback := th.frames } LuaThread.new) := by
  intro vm kind init th hts
  refine ⟨fun i cb th' h hth' => ?_, fun h init2 resumer rframes args hinit hrf => ?_,
    fun h hinit => ?_⟩
  · obtain ⟨hlt, args0, hget⟩ := findProtectionBoundary_spec th.frames i cb h
    subst hth'
    refine ⟨?_, ?_, ?_, ?_, ?_, ?_, ?_, ?_⟩
    · simp only [handleFrameError, hts, List.getLast?_concat, h,
        List.dropLast_concat, LuaThread.truncateFrames]
    · simp only [LuaThread.truncateFrames, LuaThread.close_upvalues,
        List.length_take, List.length_set]
      omega
    · simp only [LuaThread.truncateFrames, LuaThread.close_upvalues,
        List.getLast?_eq_getElem?, List.length_take, List.length_set,
        List.getElem?_take]
      rw [show min (i + 1) th.frames.length - 1 = i by omega, if_pos (by omega),
        List.getElem?_set_eq (by omega)]
    · intro j hj
      simp only [LuaThread.truncateFrames, LuaThread.close_upvalues,
        List.getElem?_take]
      rw [if_pos (by omega), List.getElem?_set_ne (by omega)]
    · rfl
    · intro e he
      have := List.mem_filter.mp he
      simpa using this.2
    · rfl
    · intro k idx hk hcb
      simp only [LuaThread.truncateFrames, LuaThread.close_upvalues]
      simp only [List.getElem?_map, hk, Option.map_some']
      rw [if_pos hcb]
  · subst hinit
    have hne : ((init2 ++ [resumer]).isEmpty = true) = False := by
      simp [List.isEmpty_iff]
    simp only [handleFrameError, hts, List.getLast?_concat, h,
      List.dropLast_concat, hne, if_false, hrf, List.dropLast_concat]
  · subst hinit
    simp only [handleFrameError, hts, List.nil_append, List.getLast?_singleton,
      h, List.dropLast_single, List.isEmpty_nil, if_true]
    rfl

/-- Witness for C1 at concrete inputs.  A thread whose frames are a
protected-call continuation (callee bottom 1) below a Lua frame unwinds on
error: the Lua frame is truncated away, the continuation holds
`Err(Other "boom")`, the open cell at slot 1 is closed with the stack value
and only the cell below the boundary stays open.  Without any boundary, a
non-main thread dies delivering the error to its resumer's resume
continuation, and the main thread surfaces a `RuntimeError` whose traceback
comes from the frames before the thread is cleared. -/
theorem pcall_unwind_or_thread_death_witness :
    handleFrameError
        { threadStack :=
            [{ stack := [Value.integer 1, Value.integer 2],
               frames := [Frame.ProtectedCallContinuation none 1,
                 Frame.Lua (LuaFrame.new 1)],
               open_upvalues := [(0, 0), (1, 1)],
               cells := [Upvalue.Open 0, Upvalue.Open 1],
               status := .Unresumable }],
          metatables := fun _ => none }
        (.Other "boom")
      = .unwound
          { threadStack :=
              [{ stack := [Value.integer 1, Value.integer 2],
                 frames := [Frame.ProtectedCallContinuation
                   (some (.error (.Other "boom"))) 1],
                 open_upvalues := [(0, 0)],
                 cells := [Upvalue.Open 0, Upvalue.Closed (Value.integer 2)],
                 status := .Unresumable }],
            metatables := fun _ => none }
    ∧ handleFrameError
        { threadStack :=
            [{ stack := [], frames := [Frame.ResumeContinuation none],
               open_upvalues := [], cells := [], status := .Unresumable },
             { stack := [], frames := [Frame.Lua (LuaFrame.new 0)],
               open_upvalues := [], cells := [], status := .Unresumable }],
          metatables := fun _ => none }
        (.Other "boom")
      = .threadDied
          { threadStack :=
              [{ stack := [],
                 frames := [Frame.ResumeContinuation
                   (some (.error (.Other "boom")))],
                 open_upvalues := [], cells := [], status := .Unresumable }],
            metatables := fun _ => none }
          { stack := [], frames := [Frame.Lua (LuaFrame.new 0)],
            open_upvalues := [], cells := [],
            status := .Error (.Other "boom") }
    ∧ handleFrameError
        { threadStack :=
            [{ stack := [], frames := [Frame.Lua (LuaFrame.new 0)],
               open_upvalues := [], cells := [], status := .Unresumable }],
          metatables := fun _ => none }
        (.Other "boom")
      = .fatal { kind := .Other "boom", traceback := [Frame.Lua (LuaFrame.new 0)] }
          LuaThread.new := by
  refine ⟨?_, ?_, ?_⟩
  · have h := (pcall_unwind_or_thread_death
      { threadStack :=
          [{ stack := [Value.integer 1, Value.integer 2],
             frames := [Frame.ProtectedCallContinuation none 1,
               Frame.Lua (LuaFrame.new 1)],
             open_upvalues := [(0, 0), (1, 1)],
             cells := [Upvalue.Open 0, Upvalue.Open 1],
             status := .Unresumable }],
        metatables := fun _ => none }
      (.Other "boom") []
      { stack := [Value.integer 1, Value.integer 2],
        frames := [Frame.ProtectedCallContinuation none 1,
          Frame.Lua (LuaFrame.new 1)],
        open_upvalues := [(0, 0), (1, 1)],
        cells := [Upvalue.Open 0, Upvalue.Open 1],
        status := .Unresumable }
      rfl).1 0 1
      (LuaThread.truncateFrames
        (LuaThread.close_upvalues
          { stack := [Value.integer 1, Value.integer 2],
            frames := [Frame.ProtectedCallContinuation
              (some (.error (.Other "boom"))) 1,
              Frame.Lua (LuaFrame.new 1)],
            open_upvalues := [(0, 0), (1, 1)],
            cells := [Upvalue.Open 0, Upvalue.Open 1],
            status := .Unresumable }
          1)
        1)
      rfl rfl
    rw [h.1]
    rfl
  · have h := (pcall_unwind_or_thread_death
      { threadStack :=
          [{ stack := [], frames := [Frame.ResumeContinuation none],
             open_upvalues := [], cells := [], status := .Unresumable },
           { stack := [], frames := [Frame.Lua (LuaFrame.new 0)],
             open_upvalues := [], cells := [], status := .Unresumable }],
        metatables := fun _ => none }
      (.Other "boom")
      [{ stack := [], frames := [Frame.ResumeContinuation none],
         open_upvalues := [], cells := [], status := .Unresumable }]
      { stack := [], frames := [Frame.Lua (LuaFrame.new 0)],
        open_upvalues := [], cells := [], status := .Unresumable }
      rfl).2.1 rfl []
      { stack := [], frames := [Frame.ResumeContinuation none],
        open_upvalues := [], cells := [], status := .Unresumable }
      [] none rfl rfl
    rw [h]
    rfl
  · exact (pcall_unwind_or_thread_death
      { threadStack :=
          [{ stack := [], frames := [Frame.Lua (LuaFrame.new 0)],
             open_upvalues := [], cells := [], status := .Unresumable }],
        metatables := fun _ => none }
      (.Other "boom") []
      { stack := [], frames := [Frame.Lua (LuaFrame.new 0)],
        open_upvalues := [], cells := [], status := .Unresumable }
      rfl).2.2 rfl rfl
